import Mathlib

/-!
Verification of the ShadowCaster isometric mapper core against its
natural-language specification.  The definitions below are a shallow
embedding of the Python source (isomap.py, shadowmap.py, shadowdat.py,
shadowdb.py).  Machine integers are modelled as `Int`/`Nat` (Python ints
are unbounded); the program runs under Python 2 semantics (isomap.py uses
the `print` statement and relies on integer `/` being floor division), so
`/` on non-negative ints is modelled with `Nat` division.
-/

set_option maxRecDepth 100000

deriving instance DecidableEq for Except

namespace ShadowCaster

/-! ## Grid indexing: shadowmap.Map.mapindex and isomap.MapSpot.__init__ -/

namespace Map

/-- `Map.mapindex` (shadowmap.py line 101): `return y*32 + x`. -/
def mapindex (x y : Int) : Int := y * 32 + x

end Map

namespace MapSpot

/-- `self.x = index % 32` (isomap.py line 140).  The index comes from
`range(32*32)` in `isomap.__init__`, hence a natural number. -/
def xOf (index : Nat) : Nat := index % 32

/-- `self.y = index / 32` (isomap.py line 141, Python 2 floor division). -/
def yOf (index : Nat) : Nat := index / 32

/-- `self.isox = 32*64+(self.x-self.y)*64` (isomap.py line 145). -/
def isoxOf (x y : Nat) : Int := 32 * 64 + ((x : Int) - (y : Int)) * 64

/-- `self.isoy = (self.x+self.y)*32` (isomap.py line 146). -/
def isoyOf (x y : Nat) : Int := ((x : Int) + (y : Int)) * 32

end MapSpot

/-! ## Little-endian field decoding (Python struct, '<'-prefixed formats) -/

/-- Little-endian value of a byte list (least significant byte first). -/
def leVal : List Nat → Nat
  | [] => 0
  | b :: rest => b + 256 * leVal rest

/-- Two's-complement interpretation of an unsigned value of `w` bytes. -/
def toSigned (w : Nat) (n : Nat) : Int :=
  if n < 2 ^ (8 * w - 1) then (n : Int) else (n : Int) - 2 ^ (8 * w)

/-- struct 'l': signed 32-bit little-endian at byte offset `off`. -/
def i32at (c : List Nat) (off : Nat) : Int := toSigned 4 (leVal ((c.drop off).take 4))

/-- struct 'h': signed 16-bit little-endian at byte offset `off`. -/
def i16at (c : List Nat) (off : Nat) : Int := toSigned 2 (leVal ((c.drop off).take 2))

/-- struct 'b': signed 8-bit at byte offset `off`. -/
def i8at (c : List Nat) (off : Nat) : Int := toSigned 1 (leVal ((c.drop off).take 1))

/-- struct 'B': unsigned 8-bit at byte offset `off`. -/
def u8at (c : List Nat) (off : Nat) : Nat := leVal ((c.drop off).take 1)

/-- Python 2 `str.lower` on one byte: ASCII A-Z mapped to a-z. -/
def pyLower (b : Nat) : Nat := if 65 ≤ b ∧ b ≤ 90 then b + 32 else b

/-- Index of the first zero byte in a field, if any (the `enumerate`
scan of the truncation loop). -/
def findZeroIdx : List Nat → Option Nat
  | [] => none
  | b :: rest => if b = 0 then some 0 else (findZeroIdx rest).map (· + 1)

/-- The null-truncation loop shared by DoorLump.load, ObjectLump.load and
ActorLump.load (shadowmap.py lines 175-178, 288-291, 389-396): scan the
fixed-width name field for the first zero byte; when one is found at
index i the field is replaced by `field[:i].lower()` and the loop breaks;
when no zero byte occurs the loop finishes without touching the field. -/
def nullTrunc (s : List Nat) : List Nat :=
  match findZeroIdx s with
  | some i => (s.take i).map pyLower
  | none => s

/-! ## The fixed-width record loop shared by the level-record lumps -/

/-- One `self.filedata.read(n)` + `struct.unpack` step.  Python's file
read returns at most the remaining bytes and `struct.unpack` raises
`struct.error` when handed too few bytes. -/
def takeRecord (n : Nat) (bs : List Nat) : Except String (List Nat × List Nat) :=
  if n ≤ bs.length then .ok (bs.take n, bs.drop n) else .error "struct.error"

/-- The record loop of the level-record `load` methods
(`for num in range(self.size / struct.calcsize(fmt)): ... struct.unpack`):
decode `count` fixed-width records from the byte stream. -/
def loadRecords {ρ : Type} (recsize : Nat) (unpack : List Nat → ρ) :
    Nat → List Nat → Except String (List ρ)
  | 0, _ => .ok []
  | n + 1, bs =>
    match takeRecord recsize bs with
    | .error e => .error e
    | .ok (chunk, rest) =>
      match loadRecords recsize unpack n rest with
      | .error e => .error e
      | .ok rs => .ok (unpack chunk :: rs)

/-! ## Python dicts as insertion-ordered association lists -/

/-- Python dict lookup. -/
def dictLookup {β : Type} (d : List (Int × β)) (k : Int) : Option β :=
  match d with
  | [] => none
  | (k', v) :: rest => if k' = k then some v else dictLookup rest k

/-- Python dict assignment `d[k] = v`: replace in place when the key is
present, append otherwise. -/
def dictSet {β : Type} (d : List (Int × β)) (k : Int) (v : β) : List (Int × β) :=
  if (dictLookup d k).isSome then
    d.map (fun p => if p.1 = k then (k, v) else p)
  else d ++ [(k, v)]

/-- Python `data[index].append(item)` preceded by `data[index] = []` when
the key is new (the accumulation pattern of ItemLump/ObjectLump.load). -/
def dictAppend {β : Type} (d : List (Int × List β)) (k : Int) (v : β) :
    List (Int × List β) :=
  if (dictLookup d k).isSome then
    d.map (fun p => if p.1 = k then (p.1, p.2 ++ [v]) else p)
  else d ++ [(k, [v])]

/-! ## Door records (shadowmap.py DoorLump/Door) -/

/-- shadowmap.py line 30: `(NORTH, WEST, SOUTH, EAST) = range(4)`; only
the first two directions are used for drawing. -/
inductive Direction where
  | north
  | west
deriving DecidableEq

/-- Raw door record, format '<lllB20slbbblll' (shadowmap.py line 163,
52 bytes); `name` is the 20-byte string field (tuple index 4). -/
structure DoorRaw where
  f0 : Int
  f1 : Int
  f2 : Int
  f3 : Nat
  name : List Nat
  f5 : Int
  f6 : Int
  f7 : Int
  f8 : Int
  f9 : Int
  f10 : Int
  f11 : Int
deriving DecidableEq

/-- struct.unpack of one 52-byte door record. -/
def unpackDoor (c : List Nat) : DoorRaw :=
  { f0 := i32at c 0, f1 := i32at c 4, f2 := i32at c 8
    f3 := u8at c 12
    name := (c.drop 13).take 20
    f5 := i32at c 33
    f6 := i8at c 37, f7 := i8at c 38, f8 := i8at c 39
    f9 := i32at c 40, f10 := i32at c 44, f11 := i32at c 48 }

/-- shadowmap.Door (lines 200-212). -/
structure Door where
  uniqid : Int
  name : List Nat
  doortype : Int
  locked : Int
  x : Int
  y : Int
  orientation : Direction
deriving DecidableEq

/-- Door.__init__ from the (name-truncated) raw record. -/
def Door.ofRaw (r : DoorRaw) : Door :=
  { uniqid := r.f0, name := r.name, doortype := r.f5, locked := r.f7
    x := r.f9, y := r.f10
    orientation := if r.f3 = 0 then .west else .north }

/-- Result of DoorLump.load: `rawdata` keeps every decoded record (with
the name field already null-truncated), `data` is the dict keyed by map
index. -/
structure DoorLoadResult where
  rawdata : List DoorRaw
  data : List (Int × Door)
deriving DecidableEq

/-- DoorLump.load (shadowmap.py lines 165-181).  The record count is
`self.size / struct.calcsize(self.doordata)` — Python 2 floor division,
i.e. ⌊size/52⌋; each record's name field is truncated at the first zero
byte; `self.data[mapindex] = tempdoor` makes the last record at a given
map index win. -/
def DoorLump.load (bs : List Nat) : Except String DoorLoadResult :=
  match loadRecords 52
      (fun c => let t := unpackDoor c; { t with name := nullTrunc t.name })
      (bs.length / 52) bs with
  | .error e => .error e
  | .ok raws =>
    .ok { rawdata := raws
          data := raws.foldl
            (fun d r =>
              let door := Door.ofRaw r
              dictSet d (Map.mapindex door.x door.y) door) [] }

/-! ## Item records (shadowmap.py ItemLump/Item) -/

/-- struct.unpack of one 42-byte item record, format '<9lhl'
(shadowmap.py line 226): nine int32s, one int16, one int32. -/
def unpackItem (c : List Nat) : List Int :=
  (List.range 9).map (fun i => i32at c (4 * i)) ++ [i16at c 36, i32at c 38]

/-- shadowmap.Item (lines 256-262): both subx and suby are assigned from
tuple index 9 of the record. -/
structure Item where
  uniqid : Int
  x : Int
  y : Int
  itemtype : Int
  subx : Int
  suby : Int
deriving DecidableEq

/-- Item.__init__ from the unpacked record tuple. -/
def Item.ofLump (l : List Int) : Item :=
  { uniqid := l.getD 0 0, x := l.getD 3 0, y := l.getD 4 0
    itemtype := l.getD 6 0, subx := l.getD 9 0, suby := l.getD 9 0 }

/-- Result of ItemLump.load. -/
structure ItemLoadResult where
  rawdata : List (List Int)
  data : List (Int × List Item)
deriving DecidableEq

/-- ItemLump.load (shadowmap.py lines 228-242): ⌊size/42⌋ records, items
at the same map index accumulate into a list. -/
def ItemLump.load (bs : List Nat) : Except String ItemLoadResult :=
  match loadRecords 42 unpackItem (bs.length / 42) bs with
  | .error e => .error e
  | .ok raws =>
    .ok { rawdata := raws
          data := raws.foldl
            (fun d r =>
              let item := Item.ofLump r
              dictAppend d (Map.mapindex item.x item.y) item) [] }

/-! ## Creature records (shadowmap.py CreatureLump/Creature) -/

/-- Field kinds appearing in the creature struct format. -/
inductive FieldSpec where
  | i32
  | i16
  | i8
  | u8
deriving DecidableEq

/-- Byte width of one field. -/
def FieldSpec.width : FieldSpec → Nat
  | .i32 => 4
  | .i16 => 2
  | .i8 => 1
  | .u8 => 1

/-- Read one field from the head of the byte stream. -/
def FieldSpec.read (f : FieldSpec) (bs : List Nat) : Int :=
  match f with
  | .i32 => toSigned 4 (leVal (bs.take 4))
  | .i16 => toSigned 2 (leVal (bs.take 2))
  | .i8 => toSigned 1 (leVal (bs.take 1))
  | .u8 => (leVal (bs.take 1) : Int)

/-- struct.unpack over a whole format list. -/
def unpackFields : List FieldSpec → List Nat → List Int
  | [], _ => []
  | f :: fs, bs => f.read bs :: unpackFields fs (bs.drop f.width)

/-- Field layout of '<11l6lB2l2hl11l11llhB5lh' (creature record,
shadowmap.py line 331): 54 fields, 202 bytes. -/
def creatureFormat : List FieldSpec :=
  List.replicate 11 .i32 ++ List.replicate 6 .i32 ++ [.u8] ++
    List.replicate 2 .i32 ++ List.replicate 2 .i16 ++ [.i32] ++
    List.replicate 11 .i32 ++ List.replicate 11 .i32 ++ [.i32] ++
    [.i16] ++ [.u8] ++ List.replicate 5 .i32 ++ [.i16]

/-- shadowmap.Creature (lines 356-361): x = tuple index 20, y = 21,
crtype = 3, subx = suby = 32 (hardcoded mid-cell position). -/
structure Creature where
  crtype : Int
  x : Int
  y : Int
  subx : Int
  suby : Int
deriving DecidableEq

/-- Creature.__init__ from the unpacked record tuple. -/
def Creature.ofLump (l : List Int) : Creature :=
  { crtype := l.getD 3 0, x := l.getD 20 0, y := l.getD 21 0
    subx := 32, suby := 32 }

/-- Result of CreatureLump.load. -/
structure CreatureLoadResult where
  rawdata : List (List Int)
  data : List (Int × Creature)
deriving DecidableEq

/-- CreatureLump.load (shadowmap.py lines 333-344): ⌊size/202⌋ records,
`self.data[mapindex] = tempcreature` keeps only the last creature at a
given map index. -/
def CreatureLump.load (bs : List Nat) : Except String CreatureLoadResult :=
  match loadRecords 202 (unpackFields creatureFormat) (bs.length / 202) bs with
  | .error e => .error e
  | .ok raws =>
    .ok { rawdata := raws
          data := raws.foldl
            (fun d r =>
              let cr := Creature.ofLump r
              dictSet d (Map.mapindex cr.x cr.y) cr) [] }

/-! ## Objects and the per-cell item/object ordering (isomap.MapSpot) -/

/-- shadowmap.ShObject (lines 310-317). -/
structure ShObject where
  uniqid : Int
  name : List Nat
  objecttype : Int
  x : Int
  y : Int
  subx : Int
  suby : Int
deriving DecidableEq

/-- Insertion step of a stable ascending sort: a later-arriving element
passes every earlier element with a strictly smaller key and stops in
front of the first element with a key ≥ its own. -/
def orderedInsertBy {ρ : Type} (key : ρ → Int) (a : ρ) : List ρ → List ρ
  | [] => [a]
  | b :: l => if key a ≤ key b then a :: b :: l else b :: orderedInsertBy key a l

/-- Python's `sorted(xs, key=attrgetter('subx'))`: a stable ascending
sort by the key.  Timsort is stable, and a stable sort by a single key
is uniquely determined by (permutation, sortedness, preservation of the
relative order of equal keys), so this insertion sort computes the same
list. -/
def pySortBy {ρ : Type} (key : ρ → Int) : List ρ → List ρ
  | [] => []
  | a :: l => orderedInsertBy key a (pySortBy key l)

/-- MapSpot.additems (isomap.py lines 167-177): append the given items to
the per-cell list, sorted ascending by subx. -/
def MapSpot.additems (itemdata : List Item) (items : List Item) : List Item :=
  itemdata ++ pySortBy Item.subx items

/-- MapSpot.addobjects (isomap.py lines 191-203): same pattern for
static objects. -/
def MapSpot.addobjects (objectdata : List ShObject) (shobjects : List ShObject) :
    List ShObject :=
  objectdata ++ pySortBy ShObject.subx shobjects

/-! ## WallLump masking (shadowdat.py lines 250-287) -/

namespace WallLump

/-- The enumerate loop of WallLump.maskimage (shadowdat.py lines
259-261): walk the palette-index data, clearing the mask at each
position whose colour index is 0. -/
def maskLoop : List Nat → List Nat → Nat → List Nat
  | [], maskdata, _ => maskdata
  | v :: rest, maskdata, pos =>
    maskLoop rest (if v = 0 then maskdata.set pos 0 else maskdata) (pos + 1)

/-- The alpha channel produced by WallLump.maskimage (lines 250-265): a
mask initialised to 255 for every pixel (`Image.new('L', size, 255)`),
then cleared by the loop and attached with `putalpha`. -/
def maskAlpha (src : List Nat) : List Nat :=
  maskLoop src (List.replicate src.length 255) 0

/-- The palette-index pixels WallLump.load (lines 267-287) hands to
maskimage: the lump bytes after the 2-byte quarter-height header and the
64 discarded 16-bit column offsets (130 bytes), before the rotate/mirror
orientation transform. -/
def pixelBytes (bs : List Nat) : List Nat := bs.drop 130

end WallLump

/-! ## SpriteLump decoding (shadowdat.py lines 328-374) -/

/-- `self.filedata.seek(pos + off)` followed by `read(n)` and a
struct.unpack of exactly `n` bytes; unpack raises when the data runs
out. -/
def readBytes (bs : List Nat) (off n : Nat) : Except String (List Nat) :=
  if off + n ≤ bs.length then .ok ((bs.drop off).take n) else .error "struct.error"

/-- Decoded sprite bitmap: palette rows and alpha rows after the final
crop to maxheight+1 rows and the vertical flip. -/
structure SpriteImage where
  width : Int
  pixrows : List (List Nat)
  maskrows : List (List Nat)
deriving DecidableEq

/-- Inner loop over one column's run (shadowdat.py lines 360-363):
`tempdata[(yend - index)*width + x] = value`, and the mask is set to 255
at the same position when the value is non-zero. -/
def placeColumn (width x yend : Nat) :
    Nat → List Nat → List Nat × List Nat → List Nat × List Nat
  | _, [], st => st
  | index, value :: rest, (tempdata, tempmask) =>
    placeColumn width x yend (index + 1) rest
      (tempdata.set ((yend - index) * width + x) value,
       if value ≠ 0 then tempmask.set ((yend - index) * width + x) 255 else tempmask)

/-- The per-column loop of SpriteLump.load (lines 349-363).  `cols`
enumerates the column offset table as (x, offset) pairs; the state is
(tempdata, tempmask, maxheight).  Only columns with a positive offset
are decoded; each stores a (yEnd, yStart) byte pair followed by
yEnd - yStart + 1 intensity bytes (a negative count makes struct.unpack
raise). -/
def decodeColumns (bs : List Nat) (width : Nat) :
    List (Nat × Nat) → List Nat × List Nat × Nat →
    Except String (List Nat × List Nat × Nat)
  | [], st => .ok st
  | (x, offset) :: rest, (tempdata, tempmask, maxheight) =>
    if 0 < offset then
      match readBytes bs offset 2 with
      | .error e => .error e
      | .ok hdr =>
        let yend := hdr.getD 0 0
        let ystart := hdr.getD 1 0
        if yend + 1 < ystart then .error "struct.error"
        else
          let colsize := yend + 1 - ystart
          let maxheight' := max maxheight yend
          match readBytes bs (offset + 2) colsize with
          | .error e => .error e
          | .ok coldata =>
            let st' := placeColumn width x yend 0 coldata (tempdata, tempmask)
            decodeColumns bs width rest (st'.1, st'.2, maxheight')
    else decodeColumns bs width rest (tempdata, tempmask, maxheight)

/-- The '<hh' sprite header: (unknown, width), both signed 16-bit. -/
def SpriteLump.header (bs : List Nat) : Except String (Int × Int) :=
  match readBytes bs 0 4 with
  | .error e => .error e
  | .ok hdr => .ok (toSigned 2 (leVal (hdr.take 2)), toSigned 2 (leVal (hdr.drop 2)))

/-- SpriteLump.load (shadowdat.py lines 328-374).  Returns `none` when
the width guard `width > 320 or width <= 0` rejects the lump (the
method returns before decoding anything).  Otherwise the column offset
table is read, every column with a non-zero offset is decoded, and the
buffers are cropped to rows 0..maxheight and vertically flipped. -/
def SpriteLump.load (bs : List Nat) : Except String (Option SpriteImage) :=
  match SpriteLump.header bs with
  | .error e => .error e
  | .ok (_, width) =>
    if 320 < width ∨ width ≤ 0 then .ok none
    else
      let w := width.toNat
      match readBytes bs 4 (w * 2) with
      | .error e => .error e
      | .ok offbytes =>
        let offsets := (List.range w).map (fun i => leVal ((offbytes.drop (2 * i)).take 2))
        match decodeColumns bs w offsets.enum
            (List.replicate (w * 320) 0, List.replicate (w * 320) 0, 0) with
        | .error e => .error e
        | .ok (tempdata, tempmask, maxheight) =>
          .ok (some
            { width := width
              pixrows := ((List.range (maxheight + 1)).map
                (fun r => (tempdata.drop (r * w)).take w)).reverse
              maskrows := ((List.range (maxheight + 1)).map
                (fun r => (tempmask.drop (r * w)).take w)).reverse })

/-- A synthetic 2-column, width-2 sprite lump: header (unknown 0,
width 2), column offsets 8 and 13, and two (yEnd=5, yStart=3) runs with
intensity bytes (7,8,9) and (4,5,6). -/
def spriteExample : List Nat := [0, 0, 2, 0, 8, 0, 13, 0, 5, 3, 7, 8, 9, 5, 3, 4, 5, 6]

/-- The expected decode of `spriteExample`: six rows after cropping to
maxYEnd = 5 and flipping; exactly the top three rows are opaque in both
columns. -/
def spriteExpected : SpriteImage :=
  { width := 2
    pixrows := [[7, 4], [8, 5], [9, 6], [0, 0], [0, 0], [0, 0]]
    maskrows := [[255, 255], [255, 255], [255, 255], [0, 0], [0, 0], [0, 0]] }

/-! ## Wall tiles and the skewed-face cache (shadowdb.walltile) -/

/-- The PIL image primitives used by wall-face generation, abstracted
over the bitmap type: `height` is `image.size[1]`, `crop img top bottom`
is `image.crop((0, top, 64, bottom))`, the two skews are
tile.leftskew/rightskew (shadowdb.py lines 48-62), `mirror` is
ImageOps.mirror, `darkenHalf` is the 50% composite with black
(shadowdb.py lines 128-130), and `grayMask96 img` is
`Image.new("L", img.size, 96)` (line 133). -/
structure PILOps (α : Type) where
  height : α → Int
  crop : α → Int → Int → α
  leftskew : α → α
  rightskew : α → α
  mirror : α → α
  darkenHalf : α → α
  grayMask96 : α → α

/-- One entry of the walltile face/mask caches.  The source keeps
`faces[key]` and `masks[key]` as 2×2 matrices indexed by direction
(NORTH/WEST) and front (0) / back (1); both dicts are always written
together under the same key (shadowdb.py lines 124-142), so they are
modelled as one record. -/
structure FaceSet (α : Type) where
  northFront : α
  westFront : α
  northBack : α
  westBack : α
  maskNorthFront : α
  maskWestFront : α
  maskNorthBack : α
  maskWestBack : α
deriving DecidableEq

/-- walltile.generate_isometric (shadowdb.py lines 111-142). -/
def walltile.generate_isometric {α : Type} (ops : PILOps α) (fullimage : α) :
    FaceSet α :=
  let backimage := ops.mirror (ops.darkenHalf fullimage)
  let backmask := ops.grayMask96 fullimage
  { northFront := ops.leftskew fullimage
    westFront := ops.rightskew fullimage
    northBack := ops.leftskew backimage
    westBack := ops.rightskew backimage
    maskNorthFront := ops.leftskew fullimage
    maskWestFront := ops.rightskew fullimage
    maskNorthBack := ops.leftskew backmask
    maskWestBack := ops.rightskew backmask }

/-- The packed cache key `(wallorigin<<20)+(ceildepth<<10)+floordepth`
(shadowdb.py line 96).  Python's << on arbitrary ints is multiplication
by a power of two (2^20 = 1048576, 2^10 = 1024). -/
def wallkey (wallorigin ceildepth floordepth : Int) : Int :=
  wallorigin * 1048576 + ceildepth * 1024 + floordepth

/-- The depth data of one isomap.MapSpot consumed by prepare_size
(isomap.py lines 131-135): each depth is maxceil minus the corresponding
height layer value. -/
structure SpotDepths where
  floordepth : Int
  ceildepth : Int
  walloriginNorth : Int
  walloriginWest : Int
deriving DecidableEq

/-- `spot.wallorigins[direction]`, or `spot.floordepth` when no
direction is given (door tiles): shadowdb.py lines 91-94. -/
def SpotDepths.wallorigin (s : SpotDepths) : Option Direction → Int
  | none => s.floordepth
  | some .north => s.walloriginNorth
  | some .west => s.walloriginWest

/-- The cropped source image for one height combination (shadowdb.py
lines 103-105): `croptop = max(ceildepth - wallimgtop, 0)`, cropping to
`floordepth - wallimgtop`, with `wallimgtop = wallorigin - image.size[1]`. -/
def cropFor {α : Type} (ops : PILOps α) (image : α) (spot : SpotDepths)
    (wallorigin : Int) : α :=
  let wallimgtop := wallorigin - ops.height image
  ops.crop image (max (spot.ceildepth - wallimgtop) 0) (spot.floordepth - wallimgtop)

/-- A wall tile: the source bitmap plus the per-height-combination face
cache (walltile.__init__, lines 71-75, starts with empty dicts). -/
structure walltile (α : Type) where
  image : α
  faces : List (Int × FaceSet α)
deriving DecidableEq

/-- walltile.prepare_size (shadowdb.py lines 77-108): compute the packed
key and the top position; when the key is new, crop the source image for
this height combination and generate the skewed faces (a dict assignment
to a fresh key appends the entry); return the updated tile with
(key, walltop). -/
def walltile.prepare_size {α : Type} (ops : PILOps α) (t : walltile α)
    (spot : SpotDepths) (direction : Option Direction) :
    walltile α × Int × Int :=
  let wallorigin := spot.wallorigin direction
  let key := wallkey wallorigin spot.ceildepth spot.floordepth
  let wallimgtop := wallorigin - ops.height t.image
  let walltop := max wallimgtop spot.ceildepth
  if (dictLookup t.faces key).isSome then (t, key, walltop)
  else
    ({ t with
        faces := t.faces ++
          [(key, walltile.generate_isometric ops (cropFor ops t.image spot wallorigin))] },
     key, walltop)

/-! ## Concrete inputs for counterexamples and witnesses -/

/-- A 53-byte door lump: one 52-byte record plus a trailing byte (the
size is not a multiple of the record width). -/
def doorBytes53 : List Nat := List.replicate 53 0

/-- A 52-byte door record whose 20-byte name field is entirely 'A' (65)
and contains no zero byte. -/
def doorBytesUpper : List Nat :=
  List.replicate 13 0 ++ List.replicate 20 65 ++ List.replicate 19 0

/-- Two 52-byte door records at the same cell (x = y = 0), distinguished
by their first field (1 versus 2). -/
def doorBytesDup : List Nat :=
  (1 :: List.replicate 51 0) ++ (2 :: List.replicate 51 0)

/-- The all-zero door record with first field `v` (note the truncated
name of an all-zero field is empty). -/
def doorRawZero (v : Int) : DoorRaw :=
  { f0 := v, f1 := 0, f2 := 0, f3 := 0, name := [], f5 := 0, f6 := 0
    f7 := 0, f8 := 0, f9 := 0, f10 := 0, f11 := 0 }

/-- Expected load result for doorBytesDup: both records retained in
rawdata, only the second in the dict. -/
def doorDupResult : DoorLoadResult :=
  { rawdata := [doorRawZero 1, doorRawZero 2]
    data := [(0, Door.ofRaw (doorRawZero 2))] }

/-- Two 202-byte creature records at the same cell (x = y = 0),
distinguished by their fourth field (the crtype, bytes 12-15). -/
def creatureBytesDup : List Nat :=
  (List.replicate 12 0 ++ [3] ++ List.replicate 189 0) ++
    (List.replicate 12 0 ++ [4] ++ List.replicate 189 0)

/-- The all-zero creature record tuple with field 3 set to `v`. -/
def creatureRawZero (v : Int) : List Int := [0, 0, 0, v] ++ List.replicate 50 0

/-- Expected load result for creatureBytesDup. -/
def creatureDupResult : CreatureLoadResult :=
  { rawdata := [creatureRawZero 3, creatureRawZero 4]
    data := [(0, Creature.ofLump (creatureRawZero 4))] }

/-- A single all-zero 42-byte item record. -/
def itemBytes42 : List Nat := List.replicate 42 0

/-- Its unpacked tuple: eleven zero fields. -/
def itemRawZero : List Int := List.replicate 11 0

/-- The decoded all-zero item. -/
def itemZero : Item := Item.ofLump itemRawZero

/-- Expected load result for itemBytes42. -/
def itemResult42 : ItemLoadResult :=
  { rawdata := [itemRawZero], data := [(0, [itemZero])] }

/-- A concrete item with subx = 10. -/
def item10 : Item :=
  { uniqid := 0, x := 0, y := 0, itemtype := 0, subx := 10, suby := 10 }

/-- A concrete item with subx = 40. -/
def item40 : Item :=
  { uniqid := 1, x := 0, y := 0, itemtype := 0, subx := 40, suby := 40 }

/-- Trivial PIL primitives over Bool, used to instantiate the wall-face
cache theorem at a concrete bitmap type. -/
def opsBool : PILOps Bool :=
  { height := fun _ => 4, crop := fun b _ _ => b, leftskew := id
    rightskew := id, mirror := id, darkenHalf := not
    grayMask96 := fun _ => false }

/-- A spot whose north wall has depth triple (7, 3, 10). -/
def spotA : SpotDepths :=
  { floordepth := 10, ceildepth := 3, walloriginNorth := 7, walloriginWest := 8 }

/-- A different spot whose west wall has the same depth triple (7, 3, 10). -/
def spotB : SpotDepths :=
  { floordepth := 10, ceildepth := 3, walloriginNorth := 5, walloriginWest := 7 }

/-- A spot whose north wall has the differing depth triple (6, 3, 10). -/
def spotC : SpotDepths :=
  { floordepth := 10, ceildepth := 3, walloriginNorth := 6, walloriginWest := 8 }

/-! # Theorems -/

/-! ## Helper lemmas about the record loop -/

theorem loadRecords_isOk {ρ : Type} (recsize : Nat) (unpack : List Nat → ρ) :
    ∀ (n : Nat) (bs : List Nat), n * recsize ≤ bs.length →
      ∃ rs, loadRecords recsize unpack n bs = .ok rs ∧ rs.length = n := by
  intro n
  induction n with
  | zero => exact fun bs _ => ⟨[], rfl, rfl⟩
  | succ n ih =>
    intro bs hlen
    rw [Nat.succ_mul] at hlen
    have h1 : recsize ≤ bs.length := le_trans (Nat.le_add_left _ _) hlen
    have h2 : n * recsize ≤ (bs.drop recsize).length := by
      rw [List.length_drop]
      exact Nat.le_sub_of_add_le hlen
    obtain ⟨rs, hrs, hlenrs⟩ := ih (bs.drop recsize) h2
    refine ⟨unpack (bs.take recsize) :: rs, ?_, by simp [hlenrs]⟩
    simp only [loadRecords, takeRecord, if_pos h1, hrs]

theorem loadRecords_length {ρ : Type} (recsize : Nat) (unpack : List Nat → ρ) :
    ∀ (n : Nat) (bs : List Nat) (rs : List ρ),
      loadRecords recsize unpack n bs = .ok rs → rs.length = n := by
  intro n
  induction n with
  | zero =>
    intro bs rs h
    simp only [loadRecords] at h
    cases h
    rfl
  | succ n ih =>
    intro bs rs h
    simp only [loadRecords] at h
    cases htr : takeRecord recsize bs with
    | error e => rw [htr] at h; exact (Except.noConfusion h)
    | ok p =>
      obtain ⟨chunk, rest⟩ := p
      rw [htr] at h
      dsimp only at h
      cases hlr : loadRecords recsize unpack n rest with
      | error e => rw [hlr] at h; exact (Except.noConfusion h)
      | ok rs' =>
        rw [hlr] at h
        injection h with h'
        subst h'
        simp [ih rest rs' hlr]

/-! ## Helper lemmas about the dict model -/

theorem dictLookup_append_self {β : Type} (k : Int) (v : β) :
    ∀ d : List (Int × β), dictLookup d k = none →
      dictLookup (d ++ [(k, v)]) k = some v := by
  intro d
  induction d with
  | nil => intro; simp [dictLookup]
  | cons p rest ih =>
    intro h
    obtain ⟨k', w⟩ := p
    simp only [dictLookup, List.cons_append] at h ⊢
    by_cases hk : k' = k
    · rw [if_pos hk] at h; exact (Option.noConfusion h)
    · rw [if_neg hk] at h ⊢
      exact ih h

theorem dictLookup_append_ne {β : Type} (k k' : Int) (v : β) (hk : k' ≠ k) :
    ∀ d : List (Int × β), dictLookup (d ++ [(k, v)]) k' = dictLookup d k' := by
  intro d
  induction d with
  | nil =>
    simp only [List.nil_append, dictLookup]
    rw [if_neg (fun h => hk h.symm)]
  | cons p rest ih =>
    obtain ⟨k₀, w⟩ := p
    simp only [List.cons_append, dictLookup]
    split
    · rfl
    · exact ih

theorem dictLookup_replace_self {β : Type} (k : Int) (v : β) :
    ∀ d : List (Int × β), (dictLookup d k).isSome →
      dictLookup (d.map (fun p => if p.1 = k then (k, v) else p)) k = some v := by
  intro d
  induction d with
  | nil => intro h; simp [dictLookup] at h
  | cons p rest ih =>
    intro h
    obtain ⟨k₀, w⟩ := p
    simp only [List.map_cons]
    simp only [dictLookup] at h
    by_cases hk : k₀ = k
    · have : (if (k₀, w).1 = k then (k, v) else (k₀, w)) = (k, v) := by
        simp [if_pos hk]
      rw [this]
      simp [dictLookup]
    · have : (if (k₀, w).1 = k then (k, v) else (k₀, w)) = (k₀, w) := by
        simp [if_neg hk]
      rw [this]
      simp only [dictLookup]
      rw [if_neg hk]
      rw [if_neg hk] at h
      exact ih h

theorem dictLookup_replace_ne {β : Type} (k k' : Int) (v : β) (hk : k' ≠ k) :
    ∀ d : List (Int × β),
      dictLookup (d.map (fun p => if p.1 = k then (k, v) else p)) k' =
        dictLookup d k' := by
  intro d
  induction d with
  | nil => rfl
  | cons p rest ih =>
    obtain ⟨k₀, w⟩ := p
    simp only [List.map_cons]
    by_cases hk0 : k₀ = k
    · have : (if (k₀, w).1 = k then (k, v) else (k₀, w)) = (k, v) := by
        simp [if_pos hk0]
      rw [this]
      simp only [dictLookup]
      rw [if_neg (fun h => hk h.symm), if_neg (fun h => hk (hk0 ▸ h).symm)]
      exact ih
    · have : (if (k₀, w).1 = k then (k, v) else (k₀, w)) = (k₀, w) := by
        simp [if_neg hk0]
      rw [this]
      simp only [dictLookup]
      split
      · rfl
      · exact ih

theorem dictLookup_dictSet_self {β : Type} (d : List (Int × β)) (k : Int) (v : β) :
    dictLookup (dictSet d k v) k = some v := by
  unfold dictSet
  by_cases h : (dictLookup d k).isSome
  · rw [if_pos h]; exact dictLookup_replace_self k v d h
  · rw [if_neg h]
    exact dictLookup_append_self k v d (Option.not_isSome_iff_eq_none.mp h)

theorem dictLookup_dictSet_ne {β : Type} (d : List (Int × β)) (k k' : Int) (v : β)
    (hk : k' ≠ k) : dictLookup (dictSet d k v) k' = dictLookup d k' := by
  unfold dictSet
  by_cases h : (dictLookup d k).isSome
  · rw [if_pos h]; exact dictLookup_replace_ne k k' v hk d
  · rw [if_neg h]; exact dictLookup_append_ne k k' v hk d

theorem getLast?_cons_eq {β : Type} (a : β) (l : List β) :
    (a :: l).getLast? = match l.getLast? with
      | some x => some x
      | none => some a := by
  induction l generalizing a with
  | nil => rfl
  | cons b bl ih =>
    have h := ih b
    cases hbl : bl.getLast? with
    | some x => rw [hbl] at h; rw [List.getLast?_cons_cons, h]
    | none => rw [hbl] at h; rw [List.getLast?_cons_cons, h]

/-- The lookup of a dict built by repeated `d[key(v)] = v` assignments:
the last matching record wins, and absent keys fall back to the initial
dict. -/
theorem dictLookup_foldl_dictSet {ρ β : Type} (f : ρ → β) (key : β → Int) :
    ∀ (recs : List ρ) (d : List (Int × β)) (k : Int),
      dictLookup
        (recs.foldl (fun acc r => dictSet acc (key (f r)) (f r)) d) k =
        match ((recs.map f).filter (fun v => key v = k)).getLast? with
        | some v => some v
        | none => dictLookup d k := by
  intro recs
  induction recs with
  | nil => intro d k; rfl
  | cons r rest ih =>
    intro d k
    rw [List.foldl_cons, ih]
    by_cases hk : key (f r) = k
    · have hfil : ((r :: rest).map f).filter (fun v => key v = k) =
          f r :: ((rest.map f).filter (fun v => key v = k)) := by
        simp only [List.map_cons, List.filter_cons]
        rw [if_pos (by simp [hk])]
      rw [hfil, getLast?_cons_eq]
      cases hlast : ((rest.map f).filter (fun v => key v = k)).getLast? with
      | some v => rfl
      | none =>
        dsimp only
        rw [hk]
        exact dictLookup_dictSet_self d k (f r)
    · have hfil : ((r :: rest).map f).filter (fun v => key v = k) =
          (rest.map f).filter (fun v => key v = k) := by
        simp only [List.map_cons, List.filter_cons]
        rw [if_neg (by simp [hk])]
      rw [hfil]
      cases hlast : ((rest.map f).filter (fun v => key v = k)).getLast? with
      | some v => rfl
      | none => exact dictLookup_dictSet_ne d (key (f r)) k (f r) (fun h => hk h.symm)

/-! ## Helper lemmas about the null-truncation loop -/

theorem findZeroIdx_eq_none : ∀ s : List Nat, 0 ∉ s → findZeroIdx s = none := by
  intro s
  induction s with
  | nil => intro _; rfl
  | cons b rest ih =>
    intro h
    have hb : ¬ b = 0 := by
      intro hb
      subst hb
      exact h (List.mem_cons_self 0 rest)
    simp only [findZeroIdx]
    rw [if_neg hb, ih (fun hm => h (List.mem_cons_of_mem b hm))]
    rfl

theorem findZeroIdx_of_mem : ∀ s : List Nat, 0 ∈ s →
    findZeroIdx s = some (s.takeWhile (fun b => b ≠ 0)).length ∧
      s.take (s.takeWhile (fun b => b ≠ 0)).length = s.takeWhile (fun b => b ≠ 0) := by
  intro s
  induction s with
  | nil => intro h; cases h
  | cons b rest ih =>
    intro h
    by_cases hb : b = 0
    · subst hb
      constructor
      · simp [findZeroIdx, List.takeWhile_cons]
      · simp [List.takeWhile_cons]
    · have hrest : 0 ∈ rest := by
        cases List.mem_cons.mp h with
        | inl h0 => exact absurd h0.symm hb
        | inr h0 => exact h0
      obtain ⟨h1, h2⟩ := ih hrest
      have htw : (b :: rest).takeWhile (fun x => x ≠ 0) =
          b :: rest.takeWhile (fun x => x ≠ 0) := by
        rw [List.takeWhile_cons, if_pos (by simp [hb])]
      constructor
      · simp only [findZeroIdx]
        rw [if_neg hb, h1, htw]
        simp [List.length_cons]
      · rw [htw]
        simp only [List.length_cons, List.take_succ_cons]
        rw [h2]

theorem nullTrunc_of_mem (s : List Nat) (h : 0 ∈ s) :
    nullTrunc s = (s.takeWhile (fun b => b ≠ 0)).map pyLower := by
  obtain ⟨h1, h2⟩ := findZeroIdx_of_mem s h
  unfold nullTrunc
  rw [h1]
  dsimp only
  rw [h2]

theorem nullTrunc_of_not_mem (s : List Nat) (h : 0 ∉ s) : nullTrunc s = s := by
  unfold nullTrunc
  rw [findZeroIdx_eq_none s h]

/-- Every element stored in a bucket of `dictAppend d k v` is either an
element of a bucket of `d` or the appended value itself. -/
theorem dictAppend_forall {β : Type} (P : β → Prop) (d : List (Int × List β))
    (k : Int) (v : β) (hd : ∀ p ∈ d, ∀ it ∈ p.2, P it) (hv : P v) :
    ∀ p ∈ dictAppend d k v, ∀ it ∈ p.2, P it := by
  intro p hp it hit
  unfold dictAppend at hp
  by_cases h : (dictLookup d k).isSome
  · rw [if_pos h] at hp
    obtain ⟨q, hq, rfl⟩ := List.mem_map.mp hp
    by_cases hqk : q.1 = k
    · rw [if_pos hqk] at hit
      simp only [List.mem_append, List.mem_singleton] at hit
      rcases hit with hit | rfl
      · exact hd q hq it hit
      · exact hv
    · rw [if_neg hqk] at hit
      exact hd q hq it hit
  · rw [if_neg h] at hp
    rcases List.mem_append.mp hp with hp | hp
    · exact hd p hp it hit
    · rw [List.mem_singleton.mp hp] at hit
      simp only [List.mem_singleton] at hit
      rw [hit]
      exact hv

/-- C1: the isometric projection computed at MapSpot construction maps cell
(x, y) with 0 ≤ x, y < 32 to canvas origin (isoX, isoY) with
isoX = 32*64 + (x − y)*64 and isoY = (x + y)*32, and the mapping is
injective on the 32×32 domain. -/
theorem spec_C1 (x₁ y₁ x₂ y₂ : Nat)
    (_hx₁ : x₁ < 32) (_hy₁ : y₁ < 32) (_hx₂ : x₂ < 32) (_hy₂ : y₂ < 32) :
    MapSpot.isoxOf x₁ y₁ = 32 * 64 + ((x₁ : Int) - (y₁ : Int)) * 64 ∧
    MapSpot.isoyOf x₁ y₁ = ((x₁ : Int) + (y₁ : Int)) * 32 ∧
    (MapSpot.isoxOf x₁ y₁ = MapSpot.isoxOf x₂ y₂ →
      MapSpot.isoyOf x₁ y₁ = MapSpot.isoyOf x₂ y₂ →
      x₁ = x₂ ∧ y₁ = y₂) := by
  refine ⟨rfl, rfl, fun hx hy => ?_⟩
  unfold MapSpot.isoxOf at hx
  unfold MapSpot.isoyOf at hy
  omega

/-- Witness for C1 at the concrete cells (3, 5) and (3, 5). -/
theorem spec_C1_witness :
    MapSpot.isoxOf 3 5 = 32 * 64 + ((3 : Int) - (5 : Int)) * 64 ∧
    MapSpot.isoyOf 3 5 = ((3 : Int) + (5 : Int)) * 32 ∧
    (MapSpot.isoxOf 3 5 = MapSpot.isoxOf 3 5 →
      MapSpot.isoyOf 3 5 = MapSpot.isoyOf 3 5 →
      (3 : Nat) = 3 ∧ (5 : Nat) = 5) :=
  spec_C1 3 5 3 5 (by decide) (by decide) (by decide) (by decide)

/-- C2: grid index round-trip.  `Map.mapindex x y = y*32 + x` for
0 ≤ x, y < 32, the inverse conversion in `MapSpot.__init__`
(x = index % 32, y = index / 32) recovers (x, y), and every index in
0..1023 is recovered by the forward map. -/
theorem spec_C2 :
    (∀ x y : Nat, x < 32 → y < 32 →
      Map.mapindex x y = ((y * 32 + x : Nat) : Int) ∧
      MapSpot.xOf (y * 32 + x) = x ∧
      MapSpot.yOf (y * 32 + x) = y) ∧
    (∀ index : Nat, index < 1024 →
      Map.mapindex (MapSpot.xOf index) (MapSpot.yOf index) = (index : Int)) := by
  constructor
  · intro x y hx hy
    refine ⟨?_, ?_, ?_⟩
    · unfold Map.mapindex; push_cast; ring
    · unfold MapSpot.xOf; omega
    · unfold MapSpot.yOf; omega
  · intro index hindex
    unfold Map.mapindex MapSpot.xOf MapSpot.yOf
    push_cast
    omega

/-- Witness for C2 at the concrete cell (5, 7), index 229, and index 1000. -/
theorem spec_C2_witness :
    (Map.mapindex 5 7 = ((7 * 32 + 5 : Nat) : Int) ∧
      MapSpot.xOf (7 * 32 + 5) = 5 ∧ MapSpot.yOf (7 * 32 + 5) = 7) ∧
    Map.mapindex (MapSpot.xOf 1000) (MapSpot.yOf 1000) = (1000 : Int) :=
  ⟨spec_C2.1 5 7 (by decide) (by decide), spec_C2.2 1000 (by decide)⟩

/-- C4 fails as stated: a 53-byte door lump, whose size is not an
integral multiple of the 52-byte record width, is loaded without any
error being raised — load returns success with exactly one decoded
record, silently ignoring the trailing byte. -/
theorem spec_C4_cex :
    doorBytes53.length % 52 ≠ 0 ∧
    (DoorLump.load doorBytes53).map (fun r => r.rawdata.length) = .ok 1 := by
  constructor
  · decide
  · decide

/-- C4 (amended): for every level-record lump the record count is the
floor division ⌊size / recordWidth⌋ (Python 2 integer division in
`range(self.size / struct.calcsize(...))`); when the size is not an
integral multiple of the record width, the trailing bytes are silently
ignored and no error of any kind is raised — load always succeeds and
decodes exactly ⌊size / recordWidth⌋ records. -/
theorem spec_C4 (bs : List Nat) :
    (DoorLump.load bs).map (fun r => r.rawdata.length) = .ok (bs.length / 52) ∧
    (ItemLump.load bs).map (fun r => r.rawdata.length) = .ok (bs.length / 42) ∧
    (CreatureLump.load bs).map (fun r => r.rawdata.length) = .ok (bs.length / 202) := by
  refine ⟨?_, ?_, ?_⟩
  · obtain ⟨rs, hok, hlen⟩ := loadRecords_isOk 52
      (fun c => let t := unpackDoor c; { t with name := nullTrunc t.name })
      (bs.length / 52) bs (Nat.div_mul_le_self _ _)
    unfold DoorLump.load
    rw [hok]
    simp [Except.map, hlen]
  · obtain ⟨rs, hok, hlen⟩ := loadRecords_isOk 42 unpackItem
      (bs.length / 42) bs (Nat.div_mul_le_self _ _)
    unfold ItemLump.load
    rw [hok]
    simp [Except.map, hlen]
  · obtain ⟨rs, hok, hlen⟩ := loadRecords_isOk 202 (unpackFields creatureFormat)
      (bs.length / 202) bs (Nat.div_mul_le_self _ _)
    unfold CreatureLump.load
    rw [hok]
    simp [Except.map, hlen]

/-- C8 fails as stated: a door record whose 20-byte name field contains
no zero byte is stored verbatim and is NOT case-normalized; the claim
says the whole field would then be case-normalized. -/
theorem spec_C8_cex :
    (DoorLump.load doorBytesUpper).map (fun r => r.rawdata.map DoorRaw.name) =
      .ok [List.replicate 20 65] ∧
    List.replicate 20 65 ≠ (List.replicate 20 (65 : Nat)).map pyLower := by
  constructor
  · decide
  · decide

/-- C8 (amended): a fixed-width name field is truncated at the first
zero byte and case-normalized only when a zero byte exists; a field with
no zero byte is stored unmodified (in particular not case-normalized);
a field whose first byte is zero yields the empty name. -/
theorem spec_C8 (s : List Nat) :
    (0 ∈ s → nullTrunc s = (s.takeWhile (fun b => b ≠ 0)).map pyLower) ∧
    (0 ∉ s → nullTrunc s = s) ∧
    (s.head? = some 0 → nullTrunc s = []) := by
  refine ⟨nullTrunc_of_mem s, nullTrunc_of_not_mem s, ?_⟩
  intro hh
  cases s with
  | nil => cases hh
  | cons b rest =>
    injection hh with hb
    subst hb
    simp [nullTrunc, findZeroIdx]

/-- Witness for C8 on the fields [66,0,67] (zero byte present: truncated
and lower-cased), [65,66] (no zero byte: unchanged) and [0,65] (leading
zero: empty name). -/
theorem spec_C8_witness :
    nullTrunc [66, 0, 67] = (([66, 0, 67].takeWhile (fun b => b ≠ 0)).map pyLower) ∧
    nullTrunc [65, 66] = [65, 66] ∧
    nullTrunc [0, 65] = [] :=
  ⟨(spec_C8 [66, 0, 67]).1 (by decide),
   (spec_C8 [65, 66]).2.1 (by decide),
   (spec_C8 [0, 65]).2.2 (by decide)⟩

/-- C9: every Item decoded by ItemLump.load has suby equal to subx,
because Item.__init__ assigns both from record field 9. -/
theorem spec_C9 (bs : List Nat) (res : ItemLoadResult)
    (h : ItemLump.load bs = .ok res) :
    ∀ p ∈ res.data, ∀ it ∈ p.2, it.suby = it.subx := by
  unfold ItemLump.load at h
  cases hlr : loadRecords 42 unpackItem (bs.length / 42) bs with
  | error e => rw [hlr] at h; exact (Except.noConfusion h)
  | ok raws =>
    rw [hlr] at h
    injection h with h'
    subst h'
    have main : ∀ (rs : List (List Int)) (d : List (Int × List Item)),
        (∀ p ∈ d, ∀ it ∈ p.2, it.suby = it.subx) →
        ∀ p ∈ rs.foldl
            (fun d r =>
              let item := Item.ofLump r
              dictAppend d (Map.mapindex item.x item.y) item) d,
          ∀ it ∈ p.2, it.suby = it.subx := by
      intro rs
      induction rs with
      | nil => intro d hd; exact hd
      | cons r rest ih =>
        intro d hd
        rw [List.foldl_cons]
        exact ih _ (dictAppend_forall _ d _ _ hd rfl)
    exact main raws [] (by intro p hp; cases hp)

/-- Witness for C9 on a single all-zero item record. -/
theorem spec_C9_witness : itemZero.suby = itemZero.subx :=
  spec_C9 itemBytes42 itemResult42 (by decide) (0, [itemZero]) (by decide)
    itemZero (by decide)

/-- C10: DoorLump.load and CreatureLump.load keep at most one entity per
grid index — the data dict maps each index to the LAST record (in file
order) that decodes to it — while rawdata still retains every record
(its length is the full record count). -/
theorem spec_C10 (bsD bsC : List Nat) (resD : DoorLoadResult)
    (resC : CreatureLoadResult) (hD : DoorLump.load bsD = .ok resD)
    (hC : CreatureLump.load bsC = .ok resC) (k : Int) :
    (dictLookup resD.data k =
      ((resD.rawdata.map Door.ofRaw).filter
        (fun dr => Map.mapindex dr.x dr.y = k)).getLast? ∧
     resD.rawdata.length = bsD.length / 52) ∧
    (dictLookup resC.data k =
      ((resC.rawdata.map Creature.ofLump).filter
        (fun cr => Map.mapindex cr.x cr.y = k)).getLast? ∧
     resC.rawdata.length = bsC.length / 202) := by
  constructor
  · unfold DoorLump.load at hD
    cases hlr : loadRecords 52
        (fun c => let t := unpackDoor c; { t with name := nullTrunc t.name })
        (bsD.length / 52) bsD with
    | error e => rw [hlr] at hD; exact (Except.noConfusion hD)
    | ok raws =>
      rw [hlr] at hD
      injection hD with h'
      subst h'
      refine ⟨?_, loadRecords_length _ _ _ _ _ hlr⟩
      have := dictLookup_foldl_dictSet Door.ofRaw
        (fun dr => Map.mapindex dr.x dr.y) raws [] k
      rw [this]
      cases ((raws.map Door.ofRaw).filter
          (fun dr => Map.mapindex dr.x dr.y = k)).getLast? with
      | some v => rfl
      | none => rfl
  · unfold CreatureLump.load at hC
    cases hlr : loadRecords 202 (unpackFields creatureFormat)
        (bsC.length / 202) bsC with
    | error e => rw [hlr] at hC; exact (Except.noConfusion hC)
    | ok raws =>
      rw [hlr] at hC
      injection hC with h'
      subst h'
      refine ⟨?_, loadRecords_length _ _ _ _ _ hlr⟩
      have := dictLookup_foldl_dictSet Creature.ofLump
        (fun cr => Map.mapindex cr.x cr.y) raws [] k
      rw [this]
      cases ((raws.map Creature.ofLump).filter
          (fun cr => Map.mapindex cr.x cr.y = k)).getLast? with
      | some v => rfl
      | none => rfl

/-- Witness for C10: two door records and two creature records, each
pair sharing cell (0,0); the dict keeps only the later record of each
pair while rawdata keeps both. -/
theorem spec_C10_witness :
    (dictLookup doorDupResult.data 0 =
      ((doorDupResult.rawdata.map Door.ofRaw).filter
        (fun dr => Map.mapindex dr.x dr.y = 0)).getLast? ∧
     doorDupResult.rawdata.length = doorBytesDup.length / 52) ∧
    (dictLookup creatureDupResult.data 0 =
      ((creatureDupResult.rawdata.map Creature.ofLump).filter
        (fun cr => Map.mapindex cr.x cr.y = 0)).getLast? ∧
     creatureDupResult.rawdata.length = creatureBytesDup.length / 202) :=
  spec_C10 doorBytesDup creatureBytesDup doorDupResult creatureDupResult
    (by decide) (by decide) 0

/-! ## Helper lemmas for the mask loop -/

theorem setAtAppend {β : Type} (x : β) :
    ∀ (pre : List β) (m : β) (ms : List β),
      (pre ++ m :: ms).set pre.length x = pre ++ x :: ms := by
  intro pre
  induction pre with
  | nil => intro m ms; rfl
  | cons a as ih =>
    intro m ms
    simp only [List.cons_append, List.length_cons, List.set_cons_succ]
    rw [ih]

theorem maskLoop_append :
    ∀ (src pre mask : List Nat), mask.length = src.length →
      WallLump.maskLoop src (pre ++ mask) pre.length =
        pre ++ List.zipWith (fun v m => if v = 0 then 0 else m) src mask := by
  intro src
  induction src with
  | nil =>
    intro pre mask hlen
    have : mask = [] := List.length_eq_zero.mp hlen
    subst this
    simp [WallLump.maskLoop]
  | cons v rest ih =>
    intro pre mask hlen
    cases mask with
    | nil => simp at hlen
    | cons m ms =>
      have hlen' : ms.length = rest.length := by simpa using hlen
      simp only [WallLump.maskLoop]
      have hset : (if v = 0 then (pre ++ m :: ms).set pre.length 0
            else pre ++ m :: ms) =
          pre ++ (if v = 0 then 0 else m) :: ms := by
        by_cases hv : v = 0
        · rw [if_pos hv, if_pos hv, setAtAppend]
        · rw [if_neg hv, if_neg hv]
      rw [hset]
      have hstep : pre ++ (if v = 0 then 0 else m) :: ms =
          (pre ++ [if v = 0 then 0 else m]) ++ ms := by simp
      have hpos : pre.length + 1 = (pre ++ [if v = 0 then 0 else m]).length := by
        simp
      rw [hstep, hpos, ih (pre ++ [if v = 0 then 0 else m]) ms hlen']
      simp

theorem zipWith_mask_replicate :
    ∀ src : List Nat,
      List.zipWith (fun v m => if v = 0 then 0 else m) src
        (List.replicate src.length 255) =
      src.map (fun v => if v = 0 then 0 else 255) := by
  intro src
  induction src with
  | nil => rfl
  | cons v rest ih =>
    simp only [List.length_cons, List.replicate_succ, List.zipWith_cons_cons,
      List.map_cons, ih]

/-! ## Helper lemmas for the stable subx sort -/

theorem orderedInsertBy_perm {ρ : Type} (key : ρ → Int) (a : ρ) :
    ∀ l : List ρ, (orderedInsertBy key a l).Perm (a :: l) := by
  intro l
  induction l with
  | nil => exact List.Perm.refl _
  | cons b bl ih =>
    unfold orderedInsertBy
    by_cases hab : key a ≤ key b
    · rw [if_pos hab]
    · rw [if_neg hab]
      exact (List.Perm.cons b ih).trans (List.Perm.swap a b bl)

theorem pySortBy_perm {ρ : Type} (key : ρ → Int) :
    ∀ l : List ρ, (pySortBy key l).Perm l := by
  intro l
  induction l with
  | nil => exact List.Perm.refl _
  | cons a al ih =>
    unfold pySortBy
    exact (orderedInsertBy_perm key a (pySortBy key al)).trans (List.Perm.cons a ih)

theorem mem_orderedInsertBy {ρ : Type} (key : ρ → Int) (a c : ρ) (l : List ρ) :
    c ∈ orderedInsertBy key a l ↔ c = a ∨ c ∈ l := by
  rw [(orderedInsertBy_perm key a l).mem_iff, List.mem_cons]

theorem orderedInsertBy_pairwise {ρ : Type} (key : ρ → Int) (a : ρ) :
    ∀ l : List ρ, l.Pairwise (fun x y => key x ≤ key y) →
      (orderedInsertBy key a l).Pairwise (fun x y => key x ≤ key y) := by
  intro l
  induction l with
  | nil => intro _; simp [orderedInsertBy]
  | cons b bl ih =>
    intro h
    rw [List.pairwise_cons] at h
    obtain ⟨hb, hbl⟩ := h
    unfold orderedInsertBy
    by_cases hab : key a ≤ key b
    · rw [if_pos hab, List.pairwise_cons]
      constructor
      · intro c hc
        rcases List.mem_cons.mp hc with rfl | hc
        · exact hab
        · exact le_trans hab (hb c hc)
      · rw [List.pairwise_cons]
        exact ⟨hb, hbl⟩
    · rw [if_neg hab, List.pairwise_cons]
      constructor
      · intro c hc
        rcases (mem_orderedInsertBy key a c bl).mp hc with rfl | hc
        · exact le_of_lt (lt_of_not_le hab)
        · exact hb c hc
      · exact ih hbl

theorem pySortBy_pairwise {ρ : Type} (key : ρ → Int) :
    ∀ l : List ρ, (pySortBy key l).Pairwise (fun x y => key x ≤ key y) := by
  intro l
  induction l with
  | nil => simp [pySortBy]
  | cons a al ih => exact orderedInsertBy_pairwise key a _ ih

theorem orderedInsertBy_filter {ρ : Type} (key : ρ → Int) (a : ρ) (v : Int) :
    ∀ l : List ρ,
      (orderedInsertBy key a l).filter (fun r => key r = v) =
        ((a :: l).filter (fun r => key r = v)) := by
  intro l
  induction l with
  | nil => rfl
  | cons b bl ih =>
    unfold orderedInsertBy
    by_cases hab : key a ≤ key b
    · rw [if_pos hab]
    · rw [if_neg hab]
      by_cases hbv : key b = v
      · by_cases hav : key a = v
        · exact absurd (le_of_eq (hav.trans hbv.symm)) hab
        · simp [List.filter_cons, hbv, hav, ih]
      · by_cases hav : key a = v
        · simp [List.filter_cons, hbv, hav, ih]
        · simp [List.filter_cons, hbv, hav, ih]

theorem pySortBy_filter {ρ : Type} (key : ρ → Int) (v : Int) :
    ∀ l : List ρ,
      (pySortBy key l).filter (fun r => key r = v) =
        l.filter (fun r => key r = v) := by
  intro l
  induction l with
  | nil => rfl
  | cons a al ih =>
    unfold pySortBy
    rw [orderedInsertBy_filter]
    simp only [List.filter_cons, ih]

/-- C5: the per-cell item (object) list stored by additems (addobjects)
is a permutation of the input sorted by ascending subx with a stable
tie-break — the sublist at any fixed subx value keeps its input order —
and two items with subx 10 and 40 are stored in ascending order
regardless of input order. -/
theorem spec_C5 (items : List Item) (shobjects : List ShObject) :
    (MapSpot.additems [] items).Perm items ∧
    (MapSpot.additems [] items).Pairwise (fun i j => i.subx ≤ j.subx) ∧
    (∀ v : Int, (MapSpot.additems [] items).filter (fun i => i.subx = v) =
      items.filter (fun i => i.subx = v)) ∧
    (MapSpot.addobjects [] shobjects).Perm shobjects ∧
    (MapSpot.addobjects [] shobjects).Pairwise (fun o p => o.subx ≤ p.subx) ∧
    (∀ v : Int, (MapSpot.addobjects [] shobjects).filter (fun o => o.subx = v) =
      shobjects.filter (fun o => o.subx = v)) ∧
    MapSpot.additems [] [item40, item10] = [item10, item40] := by
  unfold MapSpot.additems MapSpot.addobjects
  simp only [List.nil_append]
  exact ⟨pySortBy_perm _ items, pySortBy_pairwise _ items,
    fun v => pySortBy_filter _ v items,
    pySortBy_perm _ shobjects, pySortBy_pairwise _ shobjects,
    fun v => pySortBy_filter _ v shobjects,
    by decide⟩

/-- C6: sprite column decode.  A width outside 1..320 makes load return
with no decoded image; and the synthetic 2-column width-2 lump with
(yEnd=5, yStart=3) runs decodes to exactly 3 opaque rows per column at
the flipped vertical position, non-zero pixels opaque and untouched
pixels transparent. -/
theorem spec_C6 (bs : List Nat) (u w : Int)
    (hhdr : SpriteLump.header bs = .ok (u, w)) (hw : 320 < w ∨ w ≤ 0) :
    SpriteLump.load bs = .ok none ∧
    SpriteLump.load spriteExample = .ok (some spriteExpected) := by
  constructor
  · unfold SpriteLump.load
    rw [hhdr]
    dsimp only
    rw [if_pos hw]
  · decide

/-- Witness for C6: a width-400 header is rejected, and the synthetic
lump decodes to the expected bitmap. -/
theorem spec_C6_witness :
    SpriteLump.load [0, 0, 144, 1] = .ok none ∧
    SpriteLump.load spriteExample = .ok (some spriteExpected) :=
  spec_C6 [0, 0, 144, 1] 0 400 (by decide) (Or.inl (by decide))

/-- C7: masking round-trip.  The alpha channel built by
WallLump.maskimage is 0 at exactly the positions where the source
palette index is 0 and 255 at every other position, pixel for pixel
(stated on the pre-orientation image, and in particular on the pixel
bytes WallLump.load feeds to maskimage when processmask is set). -/
theorem spec_C7 (src bs : List Nat) :
    WallLump.maskAlpha src = src.map (fun v => if v = 0 then 0 else 255) ∧
    WallLump.maskAlpha (WallLump.pixelBytes bs) =
      (WallLump.pixelBytes bs).map (fun v => if v = 0 then 0 else 255) := by
  have main : ∀ s : List Nat,
      WallLump.maskAlpha s = s.map (fun v => if v = 0 then 0 else 255) := by
    intro s
    unfold WallLump.maskAlpha
    have h := maskLoop_append s [] (List.replicate s.length 255) (by simp)
    simpa [zipWith_mask_replicate s] using h
  exact ⟨main src, main (WallLump.pixelBytes bs)⟩

/-- C3: wall face cache correctness.  Starting from a fresh walltile
(empty face cache), a first spot s₁ and a second spot s₂ with the same
(wallOrigin, ceilDepth, floorDepth) triple select the same packed cache
key, the second prepare_size call leaves the tile unchanged (the cached
entry is reused), and the shared entry is exactly the face set generated
from the crop determined by the triple — bit-identical images.  A third
spot s₃ whose triple differs in at least one component (all components
lying in the range [-255, 255] reachable from the byte-valued map height
layers) selects a distinct key, absent from the cache after the first
call, and its own call regenerates faces from its own crop. -/
theorem spec_C3 {α : Type} (ops : PILOps α) (img : α) (s₁ s₂ s₃ : SpotDepths)
    (d₁ d₂ d₃ : Option Direction)
    (hEq : (s₁.wallorigin d₁, s₁.ceildepth, s₁.floordepth) =
           (s₂.wallorigin d₂, s₂.ceildepth, s₂.floordepth))
    (hNe : (s₁.wallorigin d₁, s₁.ceildepth, s₁.floordepth) ≠
           (s₃.wallorigin d₃, s₃.ceildepth, s₃.floordepth))
    (hb : -255 ≤ s₁.wallorigin d₁ ∧ s₁.wallorigin d₁ ≤ 255 ∧
          -255 ≤ s₁.ceildepth ∧ s₁.ceildepth ≤ 255 ∧
          -255 ≤ s₁.floordepth ∧ s₁.floordepth ≤ 255 ∧
          -255 ≤ s₃.wallorigin d₃ ∧ s₃.wallorigin d₃ ≤ 255 ∧
          -255 ≤ s₃.ceildepth ∧ s₃.ceildepth ≤ 255 ∧
          -255 ≤ s₃.floordepth ∧ s₃.floordepth ≤ 255) :
    (walltile.prepare_size ops
        (walltile.prepare_size ops ⟨img, []⟩ s₁ d₁).1 s₂ d₂).2.1 =
      (walltile.prepare_size ops ⟨img, []⟩ s₁ d₁).2.1 ∧
    (walltile.prepare_size ops
        (walltile.prepare_size ops ⟨img, []⟩ s₁ d₁).1 s₂ d₂).1 =
      (walltile.prepare_size ops ⟨img, []⟩ s₁ d₁).1 ∧
    dictLookup (walltile.prepare_size ops ⟨img, []⟩ s₁ d₁).1.faces
        (walltile.prepare_size ops ⟨img, []⟩ s₁ d₁).2.1 =
      some (walltile.generate_isometric ops
        (cropFor ops img s₁ (s₁.wallorigin d₁))) ∧
    (walltile.prepare_size ops
        (walltile.prepare_size ops ⟨img, []⟩ s₁ d₁).1 s₃ d₃).2.1 ≠
      (walltile.prepare_size ops ⟨img, []⟩ s₁ d₁).2.1 ∧
    dictLookup (walltile.prepare_size ops ⟨img, []⟩ s₁ d₁).1.faces
        (walltile.prepare_size ops
          (walltile.prepare_size ops ⟨img, []⟩ s₁ d₁).1 s₃ d₃).2.1 = none ∧
    dictLookup (walltile.prepare_size ops
        (walltile.prepare_size ops ⟨img, []⟩ s₁ d₁).1 s₃ d₃).1.faces
        (walltile.prepare_size ops
          (walltile.prepare_size ops ⟨img, []⟩ s₁ d₁).1 s₃ d₃).2.1 =
      some (walltile.generate_isometric ops
        (cropFor ops img s₃ (s₃.wallorigin d₃))) := by
  obtain ⟨hw, hc, hf⟩ : s₁.wallorigin d₁ = s₂.wallorigin d₂ ∧
      s₁.ceildepth = s₂.ceildepth ∧ s₁.floordepth = s₂.floordepth := by
    simpa [Prod.ext_iff] using hEq
  have hkne : wallkey (s₃.wallorigin d₃) s₃.ceildepth s₃.floordepth ≠
      wallkey (s₁.wallorigin d₁) s₁.ceildepth s₁.floordepth := by
    unfold wallkey
    intro h
    apply hNe
    obtain ⟨b1, b2, b3, b4, b5, b6, b7, b8, b9, b10, b11, b12⟩ := hb
    have h3 : s₁.wallorigin d₁ = s₃.wallorigin d₃ ∧
        s₁.ceildepth = s₃.ceildepth ∧ s₁.floordepth = s₃.floordepth := by
      refine ⟨?_, ?_, ?_⟩ <;> omega
    rw [Prod.ext_iff, Prod.ext_iff]
    exact ⟨h3.1, h3.2.1, h3.2.2⟩
  have h₁ : walltile.prepare_size ops ⟨img, []⟩ s₁ d₁ =
      (⟨img, [(wallkey (s₁.wallorigin d₁) s₁.ceildepth s₁.floordepth,
          walltile.generate_isometric ops (cropFor ops img s₁ (s₁.wallorigin d₁)))]⟩,
       wallkey (s₁.wallorigin d₁) s₁.ceildepth s₁.floordepth,
       max (s₁.wallorigin d₁ - ops.height img) s₁.ceildepth) := by
    unfold walltile.prepare_size
    simp [dictLookup]
  have h₂ : walltile.prepare_size ops
      (⟨img, [(wallkey (s₁.wallorigin d₁) s₁.ceildepth s₁.floordepth,
          walltile.generate_isometric ops (cropFor ops img s₁ (s₁.wallorigin d₁)))]⟩ :
        walltile α) s₂ d₂ =
      ((⟨img, [(wallkey (s₁.wallorigin d₁) s₁.ceildepth s₁.floordepth,
          walltile.generate_isometric ops (cropFor ops img s₁ (s₁.wallorigin d₁)))]⟩ :
        walltile α),
       wallkey (s₁.wallorigin d₁) s₁.ceildepth s₁.floordepth,
       max (s₂.wallorigin d₂ - ops.height img) s₂.ceildepth) := by
    unfold walltile.prepare_size
    rw [← hw, ← hc, ← hf]
    simp [dictLookup]
  have h₃ : walltile.prepare_size ops
      (⟨img, [(wallkey (s₁.wallorigin d₁) s₁.ceildepth s₁.floordepth,
          walltile.generate_isometric ops (cropFor ops img s₁ (s₁.wallorigin d₁)))]⟩ :
        walltile α) s₃ d₃ =
      ((⟨img, [(wallkey (s₁.wallorigin d₁) s₁.ceildepth s₁.floordepth,
          walltile.generate_isometric ops (cropFor ops img s₁ (s₁.wallorigin d₁))),
         (wallkey (s₃.wallorigin d₃) s₃.ceildepth s₃.floordepth,
          walltile.generate_isometric ops (cropFor ops img s₃ (s₃.wallorigin d₃)))]⟩ :
        walltile α),
       wallkey (s₃.wallorigin d₃) s₃.ceildepth s₃.floordepth,
       max (s₃.wallorigin d₃ - ops.height img) s₃.ceildepth) := by
    have hne' : wallkey (s₁.wallorigin d₁) s₁.ceildepth s₁.floordepth ≠
        wallkey (s₃.wallorigin d₃) s₃.ceildepth s₃.floordepth :=
      fun h => hkne h.symm
    unfold walltile.prepare_size
    simp [dictLookup, hne']
  have hne' : wallkey (s₁.wallorigin d₁) s₁.ceildepth s₁.floordepth ≠
      wallkey (s₃.wallorigin d₃) s₃.ceildepth s₃.floordepth :=
    fun h => hkne h.symm
  rw [h₁]
  dsimp only
  rw [h₂, h₃]
  dsimp only
  refine ⟨rfl, rfl, ?_, hkne, ?_, ?_⟩
  · simp [dictLookup]
  · simp [dictLookup, hne']
  · simp [dictLookup, hne']

/-- Witness for C3: a north wall at spotA and a west wall at spotB share
the depth triple (7, 3, 10); a north wall at spotC has triple (6, 3, 10). -/
theorem spec_C3_witness :
    (walltile.prepare_size opsBool
        (walltile.prepare_size opsBool ⟨true, []⟩ spotA (some .north)).1
        spotB (some .west)).2.1 =
      (walltile.prepare_size opsBool ⟨true, []⟩ spotA (some .north)).2.1 ∧
    (walltile.prepare_size opsBool
        (walltile.prepare_size opsBool ⟨true, []⟩ spotA (some .north)).1
        spotB (some .west)).1 =
      (walltile.prepare_size opsBool ⟨true, []⟩ spotA (some .north)).1 ∧
    dictLookup (walltile.prepare_size opsBool ⟨true, []⟩ spotA (some .north)).1.faces
        (walltile.prepare_size opsBool ⟨true, []⟩ spotA (some .north)).2.1 =
      some (walltile.generate_isometric opsBool
        (cropFor opsBool true spotA (spotA.wallorigin (some .north)))) ∧
    (walltile.prepare_size opsBool
        (walltile.prepare_size opsBool ⟨true, []⟩ spotA (some .north)).1
        spotC (some .north)).2.1 ≠
      (walltile.prepare_size opsBool ⟨true, []⟩ spotA (some .north)).2.1 ∧
    dictLookup (walltile.prepare_size opsBool ⟨true, []⟩ spotA (some .north)).1.faces
        (walltile.prepare_size opsBool
          (walltile.prepare_size opsBool ⟨true, []⟩ spotA (some .north)).1
          spotC (some .north)).2.1 = none ∧
    dictLookup (walltile.prepare_size opsBool
        (walltile.prepare_size opsBool ⟨true, []⟩ spotA (some .north)).1
        spotC (some .north)).1.faces
        (walltile.prepare_size opsBool
          (walltile.prepare_size opsBool ⟨true, []⟩ spotA (some .north)).1
          spotC (some .north)).2.1 =
      some (walltile.generate_isometric opsBool
        (cropFor opsBool true spotC (spotC.wallorigin (some .north)))) :=
  spec_C3 opsBool true spotA spotB spotC (some .north) (some .west) (some .north)
    (by decide) (by decide) (by decide)

end ShadowCaster
